import Mathlib

/-!
Verification of the response-to-spreadsheet pipeline of
`generate_test_cases.py` (shallow embedding).

The embedding models:
* Python/JSON dynamic values (`JVal`) and the dynamic operations the script
  uses on them (`pyGet` for `dict.get`, `pyIter` for `for _ in x`,
  `dictLookup` for key lookup with Python-dict semantics);
* `json.loads` on strings (`json_loads`, a strict JSON decoder with the
  CPython extras `NaN`/`Infinity`/`-Infinity`; numeric literals are carried
  as their lexemes since the script never computes with them);
* the Markdown fence-stripping line
  `re.sub(r"```(?:json)?\n(.*?)\n```", r"\1", text, flags=re.S).strip()`
  (`stripFences`);
* `parse_test_cases` (rows plus printed diagnostics, exceptions surfaced as
  `Except.error`);
* the cell-merge computation of `save_to_excel` (`save_to_excel_merges`);
* `read_user_stories`, the per-story main loop (`run_stories`, with the
  external model call as an oracle `String → Option String`), and the
  program-level control flow (`program`), including the module-level
  `.xlsx` extension check.
-/

/-- Python/JSON dynamic values as produced by `json.loads`.  Numeric
literals are stored as their source lexeme: the script treats numbers as
opaque payloads (it never compares or computes with them). -/
inductive JVal where
  | null
  | bool (b : Bool)
  | num (lit : String)
  | str (s : String)
  | arr (elems : List JVal)
  | obj (entries : List (String × JVal))

/-- Exceptions that can escape `parse_test_cases` (hence `main`). -/
inductive PyErr where
  | attributeError
  | typeError
deriving DecidableEq

/-- Console diagnostics printed by the script, as structured messages. -/
inductive LogMsg where
  | noResponse
  | jsonDecodeFailure (raw : String)
  | unexpectedFormat (raw : String)
  | inputNotFound
  | excelReadError
  | missingColumns (required : List String)
  | badExtension
  | noTestCases
  | savedReport

/-- Lookup in a Python dict represented as an association list whose keys
are unique (the decoder keeps them unique). -/
def dictLookup (entries : List (String × JVal)) (k : String) : Option JVal :=
  match entries with
  | [] => none
  | (k', v) :: rest => if k' = k then some v else dictLookup rest k

/-- Remove the (first) binding of a key. -/
def eraseKey (k : String) : List (String × JVal) → List (String × JVal)
  | [] => []
  | (k', v) :: rest => if k' = k then rest else (k', v) :: eraseKey k rest

/-- Python-dict insertion of a key in FRONT of existing entries: if the key
already occurs later, the earlier position wins but the later value wins
(CPython keeps the first insertion position and the last assigned value). -/
def consEntry (k : String) (v : JVal) (t : List (String × JVal)) : List (String × JVal) :=
  match dictLookup t k with
  | some v' => (k, v') :: eraseKey k t
  | none => (k, v) :: t

/-- `x.get(k, d)`: succeeds on a dict, raises `AttributeError` on every
other value (str, list, int, float, bool, None have no `.get`). -/
def pyGet (x : JVal) (k : String) (d : JVal) : Except PyErr JVal :=
  match x with
  | .obj entries => .ok ((dictLookup entries k).getD d)
  | _ => .error .attributeError

/-- `for e in x`: a list yields its elements, a str its characters (each a
one-character str), a dict its keys; int, float, bool and None raise
`TypeError`. -/
def pyIter (x : JVal) : Except PyErr (List JVal) :=
  match x with
  | .arr xs => .ok xs
  | .str s => .ok (s.data.map (fun c => JVal.str ⟨[c]⟩))
  | .obj entries => .ok (entries.map (fun e => JVal.str e.1))
  | _ => .error .typeError

/-- Is the value a Python dict? -/
def isObj : JVal → Bool
  | .obj _ => true
  | _ => false

/-- Characters the `json` module skips between tokens (`' \t\n\r'`). -/
def isJsonWs (c : Char) : Bool :=
  c == ' ' || c == '\t' || c == '\n' || c == '\r'

/-- Skip JSON whitespace. -/
def jskipWs (l : List Char) : List Char := l.dropWhile isJsonWs

/-- Value of a hexadecimal digit. -/
def hexVal (c : Char) : Option Nat :=
  if '0' ≤ c ∧ c ≤ '9' then some (c.toNat - 48)
  else if 'a' ≤ c ∧ c ≤ 'f' then some (c.toNat - 87)
  else if 'A' ≤ c ∧ c ≤ 'F' then some (c.toNat - 55)
  else none

/-- Turn a code point into a `Char`; code points Lean cannot represent
(lone surrogates, which CPython would keep in the str) are mapped to
U+FFFD. -/
def mkUChar (n : Nat) : Char :=
  if Nat.isValidChar n then Char.ofNat n else Char.ofNat 0xfffd

/-- Is the character a decimal digit? -/
def isDigitCh (c : Char) : Bool := '0' ≤ c && c ≤ '9'

/-- The opening-brace and closing-brace characters. -/
def lbraceChar : Char := Char.ofNat 123

/-- See `lbraceChar`. -/
def rbraceChar : Char := Char.ofNat 125

/-- Body of a JSON string literal, after the opening quote: returns the
decoded characters and the input after the closing quote.  Implements the
strict decoder: raw control characters are rejected, the escapes are
`\" \\ \/ \b \f \n \r \t \uXXXX`, and a `\uXXXX` high surrogate followed
by a `\uXXXX` low surrogate is combined into one code point.  The fuel
only bounds recursion; each step consumes at least one character, so any
fuel at least the input length is enough. -/
def parseJString : Nat → List Char → Option (List Char × List Char)
  | 0, _ => none
  | _ + 1, [] => none
  | fuel + 1, c :: rest =>
    if c == '"' then some ([], rest)
    else if c == '\\' then
      match rest with
      | [] => none
      | e :: rest2 =>
        if e == '"' then (parseJString fuel rest2).map (fun p => ('"' :: p.1, p.2))
        else if e == '\\' then (parseJString fuel rest2).map (fun p => ('\\' :: p.1, p.2))
        else if e == '/' then (parseJString fuel rest2).map (fun p => ('/' :: p.1, p.2))
        else if e == 'b' then (parseJString fuel rest2).map (fun p => (Char.ofNat 8 :: p.1, p.2))
        else if e == 'f' then (parseJString fuel rest2).map (fun p => (Char.ofNat 12 :: p.1, p.2))
        else if e == 'n' then (parseJString fuel rest2).map (fun p => ('\n' :: p.1, p.2))
        else if e == 'r' then (parseJString fuel rest2).map (fun p => ('\r' :: p.1, p.2))
        else if e == 't' then (parseJString fuel rest2).map (fun p => ('\t' :: p.1, p.2))
        else if e == 'u' then
          match rest2 with
          | a :: b :: c2 :: d :: rest3 =>
            match hexVal a, hexVal b, hexVal c2, hexVal d with
            | some ha, some hb, some hc, some hd =>
              let n := ((ha * 16 + hb) * 16 + hc) * 16 + hd
              if 0xd800 ≤ n ∧ n ≤ 0xdbff then
                match rest3 with
                | e2 :: u2 :: a2 :: b2 :: c3 :: d2 :: rest4 =>
                  if e2 == '\\' && u2 == 'u' then
                    match hexVal a2, hexVal b2, hexVal c3, hexVal d2 with
                    | some ha2, some hb2, some hc2, some hd2 =>
                      let m := ((ha2 * 16 + hb2) * 16 + hc2) * 16 + hd2
                      if 0xdc00 ≤ m ∧ m ≤ 0xdfff then
                        (parseJString fuel rest4).map
                          (fun p => (mkUChar (0x10000 + (n - 0xd800) * 1024 + (m - 0xdc00)) :: p.1, p.2))
                      else
                        (parseJString fuel rest3).map (fun p => (mkUChar n :: p.1, p.2))
                    | _, _, _, _ =>
                      (parseJString fuel rest3).map (fun p => (mkUChar n :: p.1, p.2))
                  else
                    (parseJString fuel rest3).map (fun p => (mkUChar n :: p.1, p.2))
                | _ =>
                  (parseJString fuel rest3).map (fun p => (mkUChar n :: p.1, p.2))
              else
                (parseJString fuel rest3).map (fun p => (mkUChar n :: p.1, p.2))
            | _, _, _, _ => none
          | _ => none
        else none
    else if c.toNat < 32 then none
    else (parseJString fuel rest).map (fun p => (c :: p.1, p.2))

/-- Optional fraction part `[.][0-9]+` of a JSON number. -/
def parseFrac (l : List Char) : List Char × List Char :=
  match l with
  | '.' :: rest =>
    let p := List.span isDigitCh rest
    if p.1 = [] then ([], l) else ('.' :: p.1, p.2)
  | _ => ([], l)

/-- Optional exponent part `[eE][+-]?[0-9]+` of a JSON number. -/
def parseExp (l : List Char) : List Char × List Char :=
  match l with
  | e :: rest =>
    if e == 'e' || e == 'E' then
      match rest with
      | s :: rest2 =>
        if s == '+' || s == '-' then
          let p := List.span isDigitCh rest2
          if p.1 = [] then ([], l) else (e :: s :: p.1, p.2)
        else
          let p := List.span isDigitCh rest
          if p.1 = [] then ([], l) else (e :: p.1, p.2)
      | [] => ([], l)
    else ([], l)
  | [] => ([], l)

/-- Maximal match of the json module's number regex
`-?(0|[1-9][0-9]*)([.][0-9]+)?([eE][+-]?[0-9]+)?`; returns the lexeme. -/
def parseNumber (l : List Char) : Option (String × List Char) :=
  let p : List Char × List Char :=
    match l with
    | c :: rest => if c == '-' then (['-'], rest) else ([], l)
    | [] => ([], l)
  match p.2 with
  | [] => none
  | c :: rest =>
    if c == '0' then
      let f := parseFrac rest
      let e := parseExp f.2
      some (⟨p.1 ++ [c] ++ f.1 ++ e.1⟩, e.2)
    else if isDigitCh c then
      let ds := List.span isDigitCh rest
      let f := parseFrac ds.2
      let e := parseExp f.2
      some (⟨p.1 ++ [c] ++ ds.1 ++ f.1 ++ e.1⟩, e.2)
    else none

/-- One JSON value at the head of the input (whitespace already skipped),
returning the value and the rest of the input.  Containers recurse with
one unit of fuel per nesting level; arrays and objects consume their
elements by re-entering through a synthetic opening bracket, so the fuel
needs to cover one unit per element as well — `json_loads` passes twice
the input length, which is always enough.  Mirrors `json.scanner`: strict
grammar plus the `NaN`, `Infinity` and `-Infinity` constants. -/
def parseValue : Nat → List Char → Option (JVal × List Char)
  | 0, _ => none
  | fuel + 1, l =>
    match l with
    | [] => none
    | c :: rest =>
      if c == '"' then
        (parseJString (fuel + 1) rest).map (fun p => (JVal.str ⟨p.1⟩, p.2))
      else if c == '[' then
        match jskipWs rest with
        | [] => none
        | c1 :: rest1 =>
          if c1 == ']' then some (JVal.arr [], rest1)
          else
            match parseValue fuel (c1 :: rest1) with
            | none => none
            | some (v, l2) =>
              match jskipWs l2 with
              | [] => none
              | c2 :: rest2 =>
                if c2 == ']' then some (JVal.arr [v], rest2)
                else if c2 == ',' then
                  match jskipWs rest2 with
                  | [] => none
                  | c3 :: rest3 =>
                    if c3 == ']' then none
                    else
                      match parseValue fuel ('[' :: c3 :: rest3) with
                      | some (JVal.arr vs, l4) => some (JVal.arr (v :: vs), l4)
                      | _ => none
                else none
      else if c == lbraceChar then
        match jskipWs rest with
        | [] => none
        | c1 :: rest1 =>
          if c1 == rbraceChar then some (JVal.obj [], rest1)
          else if c1 == '"' then
            match parseJString (fuel + 1) rest1 with
            | none => none
            | some (kcs, l2) =>
              match jskipWs l2 with
              | ':' :: l3 =>
                match parseValue fuel (jskipWs l3) with
                | none => none
                | some (v, l4) =>
                  match jskipWs l4 with
                  | [] => none
                  | c2 :: rest2 =>
                    if c2 == rbraceChar then some (JVal.obj [(⟨kcs⟩, v)], rest2)
                    else if c2 == ',' then
                      match jskipWs rest2 with
                      | [] => none
                      | c3 :: rest3 =>
                        if c3 == '"' then
                          match parseValue fuel (lbraceChar :: c3 :: rest3) with
                          | some (JVal.obj es, l5) => some (JVal.obj (consEntry ⟨kcs⟩ v es), l5)
                          | _ => none
                        else none
                    else none
              | _ => none
          else none
      else if c == 't' then
        if rest.take 3 = ['r', 'u', 'e'] then some (JVal.bool true, rest.drop 3) else none
      else if c == 'f' then
        if rest.take 4 = ['a', 'l', 's', 'e'] then some (JVal.bool false, rest.drop 4) else none
      else if c == 'n' then
        if rest.take 3 = ['u', 'l', 'l'] then some (JVal.null, rest.drop 3) else none
      else if c == 'N' then
        if rest.take 2 = ['a', 'N'] then some (JVal.num "NaN", rest.drop 2) else none
      else if c == 'I' then
        if rest.take 7 = ['n', 'f', 'i', 'n', 'i', 't', 'y'] then
          some (JVal.num "Infinity", rest.drop 7)
        else none
      else if c == '-' || isDigitCh c then
        match parseNumber (c :: rest) with
        | some (lit, l2) => some (JVal.num lit, l2)
        | none =>
          if c == '-' ∧ rest.take 8 = ['I', 'n', 'f', 'i', 'n', 'i', 't', 'y'] then
            some (JVal.num "-Infinity", rest.drop 8)
          else none
      else none

/-- `json.loads`: decode the whole string as one JSON document; `none`
models a raised `json.JSONDecodeError`. -/
def json_loads (s : String) : Option JVal :=
  match parseValue (2 * s.data.length + 8) (jskipWs s.data) with
  | some (v, rest) => if jskipWs rest = [] then some v else none
  | none => none

/-- Characters stripped by Python's `str.strip()` (the ASCII/Latin-1 part
of the Unicode whitespace set; enough for every string this development
touches). -/
def isPyWs (c : Char) : Bool :=
  c == ' ' || c == '\t' || c == '\n' || c == '\r' ||
  c == Char.ofNat 11 || c == Char.ofNat 12 ||
  c == Char.ofNat 28 || c == Char.ofNat 29 || c == Char.ofNat 30 || c == Char.ofNat 31 ||
  c == Char.ofNat 133 || c == Char.ofNat 160

/-- Python `str.strip()` on a character list. -/
def pyStrip (l : List Char) : List Char :=
  ((l.dropWhile isPyWs).reverse.dropWhile isPyWs).reverse

/-- Split the input at the first occurrence of the closing fence
`"\n```"`: returns the text before it and the text after it, or `none`
when there is no occurrence.  This is the lazy `(.*?)\n``` ` part of the
fence regex. -/
def splitAtClose : List Char → Option (List Char × List Char)
  | [] => none
  | c :: rest =>
    if c = '\n' ∧ rest.take 3 = "```".data then some ([], rest.drop 3)
    else
      match splitAtClose rest with
      | some (b, a) => some (c :: b, a)
      | none => none

/-- Try to match the fence regex `` ```(?:json)?\n(.*?)\n``` `` at the head
of the input: returns the capture group and the input after the match. -/
def matchFence (l : List Char) : Option (List Char × List Char) :=
  if l.take 8 = "```json\n".data then splitAtClose (l.drop 8)
  else if l.take 4 = "```\n".data then splitAtClose (l.drop 4)
  else none

/-- `re.sub(r"```(?:json)?\n(.*?)\n```", r"\1", text, flags=re.S)`: scan
left to right, replace each match by its capture group.  Fuel of zero
returns the rest unchanged; each step consumes at least one character, so
any fuel at least the input length gives exactly `re.sub`. -/
def reSubFence : Nat → List Char → List Char
  | 0, l => l
  | fuel + 1, l =>
    match matchFence l with
    | some (g, rest) => g ++ reSubFence fuel rest
    | none =>
      match l with
      | [] => []
      | c :: t => c :: reSubFence fuel t

/-- Line 109 of the script: strip Markdown code fences, then `.strip()`. -/
def stripFences (s : String) : String :=
  ⟨pyStrip (reSubFence (s.data.length + 1) s.data)⟩

/-- One flattened spreadsheet row (the dict built at lines 138-147). -/
structure OutputRow where
  name : JVal
  objective : JVal
  precondition : JVal
  step : JVal
  testData : JVal
  expectedResult : JVal
  coverage : JVal
  status : JVal

/-- The step loop of `parse_test_cases` (lines 137-148): one row per step,
the group-level fields only on the first row; `step.get` raises
`AttributeError` when a step entry is not a dict. -/
def flattenSteps (title objective precondition coverage status : JVal) :
    List JVal → Bool → Except PyErr (List OutputRow)
  | [], _ => .ok []
  | step :: rest, first =>
    match pyGet step "Step" (.str "N/A") with
    | .error e => .error e
    | .ok st =>
      match pyGet step "Test Data" (.str "N/A") with
      | .error e => .error e
      | .ok td =>
        match pyGet step "Expected Result" (.str "N/A") with
        | .error e => .error e
        | .ok er =>
          match flattenSteps title objective precondition coverage status rest false with
          | .error e => .error e
          | .ok more =>
            .ok ({ name := if first then title else .str ""
                   objective := if first then objective else .str ""
                   precondition := if first then precondition else .str ""
                   step := st
                   testData := td
                   expectedResult := er
                   coverage := if first then coverage else .str ""
                   status := if first then status else .str "" } :: more)

/-- The per-record body of `parse_test_cases` (lines 127-148): field
extraction with defaults, coverage set to the story id, then the step
loop.  `case.get` raises `AttributeError` on a non-dict record; iterating
a non-iterable `"Test steps"` value raises `TypeError`. -/
def processRecord (uid : String) (case_ : JVal) : Except PyErr (List OutputRow) :=
  match pyGet case_ "Title" (.str "N/A") with
  | .error e => .error e
  | .ok title =>
    match pyGet case_ "Objective" (.str "N/A") with
    | .error e => .error e
    | .ok objective =>
      match pyGet case_ "Precondition" (.str "N/A") with
      | .error e => .error e
      | .ok precondition =>
        match pyGet case_ "Status" (.str "Draft") with
        | .error e => .error e
        | .ok status =>
          match pyGet case_ "Test steps" (.arr []) with
          | .error e => .error e
          | .ok steps =>
            match pyIter steps with
            | .error e => .error e
            | .ok items =>
              flattenSteps title objective precondition (JVal.str uid) status items true

/-- The record loop of `parse_test_cases`, accumulating rows in order. -/
def processRecords (uid : String) : List JVal → Except PyErr (List OutputRow)
  | [] => .ok []
  | c :: cs =>
    match processRecord uid c with
    | .error e => .error e
    | .ok rows =>
      match processRecords uid cs with
      | .error e => .error e
      | .ok rest => .ok (rows ++ rest)

/-- `parse_test_cases(response_text, user_story_id)` (lines 99-150):
returns the rows (or the escaped exception) together with the printed
diagnostics.  An empty string is falsy, so it takes the no-response
branch; after fence stripping the text is decoded, a dict is wrapped into
a one-element list, a non-list decode is rejected with a warning. -/
def parse_test_cases (response_text uid : String) :
    Except PyErr (List OutputRow) × List LogMsg :=
  if response_text = "" then (.ok [], [.noResponse])
  else
    let stripped := stripFences response_text
    match json_loads stripped with
    | none => (.ok [], [.jsonDecodeFailure stripped])
    | some v =>
      match (match v with | .obj entries => JVal.arr [JVal.obj entries] | x => x) with
      | .arr cases => (processRecords uid cases, [])
      | _ => (.ok [], [.unexpectedFormat stripped])

/-- One `merge_range(firstRow, col, lastRow, col, value, merge_format)`
call, in worksheet coordinates (row 0 is the header row). -/
structure MergeOp where
  firstRow : Nat
  col : Nat
  lastRow : Nat
  value : JVal

/-- The comparison `df.loc[row, "Name"] == ""`: Python `==` between a str
and a non-str value is `False` without an error. -/
def nameBlank (r : OutputRow) : Bool :=
  match r.name with
  | .str s => s = ""
  | _ => false

/-- Length of the leading run of blank-`Name` rows. -/
def countLeadingBlanks : List OutputRow → Nat
  | [] => 0
  | r :: rest => if nameBlank r then countLeadingBlanks rest + 1 else 0

/-- A row that is never read (out-of-range default for `List.getD`). -/
def blankRow : OutputRow :=
  { name := .str "", objective := .str "", precondition := .str "",
    step := .str "", testData := .str "", expectedResult := .str "",
    coverage := .str "", status := .str "" }

/-- Value of column `col` of a row, with the `HEADERS` column order
(`df.columns.get_loc`). -/
def colValue (r : OutputRow) : Nat → JVal
  | 0 => r.name
  | 1 => r.objective
  | 2 => r.precondition
  | 3 => r.step
  | 4 => r.testData
  | 5 => r.expectedResult
  | 6 => r.coverage
  | 7 => r.status
  | _ => .str ""

/-- Column indices of `["Name", "Objective", "Precondition",
"Coverage (Issues)", "Status"]` in `HEADERS`. -/
def group_cols : List Nat := [0, 1, 2, 6, 7]

/-- The merge loop of `save_to_excel` (lines 171-185).  `rows` are the
DataFrame rows (0-based); `row` is the loop variable, which starts at 1;
the emitted `MergeOp`s use worksheet coordinates exactly as the
`merge_range(start_row + 1, col_idx, row, col_idx, value)` call does.
Each outer iteration advances `row` by at least one, so fuel
`rows.length + 1` makes the fueled recursion exactly the while loop. -/
def merge_loop (rows : List OutputRow) : Nat → Nat → List MergeOp
  | 0, _ => []
  | fuel + 1, row =>
    if row < rows.length then
      let start_row := row
      let row2 := start_row + countLeadingBlanks (rows.drop start_row)
      (if row2 - start_row > 1 then
        group_cols.map (fun c =>
          { firstRow := start_row + 1, col := c, lastRow := row2,
            value := colValue (rows.getD start_row blankRow) c })
      else []) ++ merge_loop rows fuel (row2 + 1)
    else []

/-- The merge ranges `save_to_excel` issues for a given row sequence. -/
def save_to_excel_merges (rows : List OutputRow) : List MergeOp :=
  merge_loop rows (rows.length + 1) 1

/-- The tabular input as `pd.read_excel` delivers it: column names plus
one total cell map per record row. -/
structure DataFrame where
  columns : List String
  records : List (String → String)

/-- ASCII `str.lower()` (Python lowers full Unicode, but for the
`.endswith(".xlsx")` check only ASCII letters matter). -/
def pyLowerChar (c : Char) : Char :=
  if 'A' ≤ c ∧ c ≤ 'Z' then Char.ofNat (c.toNat + 32) else c

/-- See `pyLowerChar`. -/
def pyLower (s : String) : String := ⟨s.data.map pyLowerChar⟩

/-- Python `str.endswith(suffix)`. -/
def pyEndsWith (s suffix : String) : Bool := suffix.data.isSuffixOf s.data

/-- The required-column set of `read_user_stories` (line 207). -/
def REQUIRED_COLUMNS : List String := ["User Story ID", "User Story"]

/-- `read_user_stories` (lines 189-215): existence check, fallible table
read, required-column check, then extraction of the two columns as
(id, text) pairs.  Returns the stories plus the printed diagnostics. -/
def read_user_stories (input_exists : Bool) (readRes : Option DataFrame) :
    List (String × String) × List LogMsg :=
  if input_exists = false then ([], [.inputNotFound])
  else
    match readRes with
    | none => ([], [.excelReadError])
    | some df =>
      if REQUIRED_COLUMNS.all (fun c => df.columns.contains c) then
        (df.records.map (fun r => (r "User Story ID", r "User Story")), [])
      else ([], [.missingColumns REQUIRED_COLUMNS])

/-- The per-story loop of `main` (lines 230-242).  The model call is the
oracle `api` applied to the story text (`generate_test_cases` returns
`None` on an API error); a falsy response (`None` or `""`) is skipped with
`continue`; otherwise the response is parsed and the rows appended.  An
exception escaping `parse_test_cases` aborts the loop (there is no
try/except in `main`).  Returns the accumulated rows (or the escaped
exception) and the number of model calls made. -/
def run_stories (api : String → Option String) :
    List (String × String) → Except PyErr (List OutputRow) × Nat
  | [] => (.ok [], 0)
  | (uid, text) :: rest =>
    match api text with
    | none =>
      let p := run_stories api rest
      (p.1, p.2 + 1)
    | some resp =>
      if resp = "" then
        let p := run_stories api rest
        (p.1, p.2 + 1)
      else
        match (parse_test_cases resp uid).1 with
        | .error e => (.error e, 1)
        | .ok rows =>
          let p := run_stories api rest
          (match p.1 with
           | .error e => .error e
           | .ok more => .ok (rows ++ more), p.2 + 1)

/-- Observable outcome of one program run. -/
structure ProgramRun where
  exitCode : Option Nat
  logs : List LogMsg
  apiCalls : Nat
  written : Option (List OutputRow × List MergeOp)
  raised : Option PyErr

/-- The program-level control flow: the module-level `.xlsx` extension
check (lines 36-38, `sys.exit(1)` on failure, before any input access)
followed by `main` (lines 218-244): input existence check,
`read_user_stories`, the story loop, then `save_to_excel` once — which
writes nothing when there are no rows, and otherwise writes the rows with
the computed merge ranges.  The input file is a parameter pair
(existence flag, table read result) and the model is the oracle `api`,
so the result of a run that exits at the extension check is independent
of both. -/
def program (output_file : String) (input_exists : Bool)
    (readRes : Option DataFrame) (api : String → Option String) : ProgramRun :=
  if pyEndsWith (pyLower output_file) ".xlsx" = false then
    { exitCode := some 1, logs := [.badExtension], apiCalls := 0,
      written := none, raised := none }
  else if input_exists = false then
    { exitCode := none, logs := [.inputNotFound], apiCalls := 0,
      written := none, raised := none }
  else
    let stories := read_user_stories input_exists readRes
    let run := run_stories api stories.1
    match run.1 with
    | .error e =>
      { exitCode := none, logs := stories.2, apiCalls := run.2,
        written := none, raised := some e }
    | .ok rows =>
      if rows.isEmpty then
        { exitCode := none, logs := stories.2 ++ [.noTestCases], apiCalls := run.2,
          written := none, raised := none }
      else
        { exitCode := none, logs := stories.2 ++ [.savedReport], apiCalls := run.2,
          written := some (rows, save_to_excel_merges rows), raised := none }

/-- Shape condition under which iterating `"Test steps"` and calling
`.get` on each entry cannot raise: the value iterates without a
`TypeError` and every yielded element is a dict. -/
def stepsSafe (v : JVal) : Bool :=
  match pyIter v with
  | .ok es => es.all isObj
  | .error _ => false

/-- Shape condition under which processing one record cannot raise. -/
def recordSafe : JVal → Bool
  | .obj entries => stepsSafe ((dictLookup entries "Test steps").getD (.arr []))
  | _ => false

/-- Shape condition on a decoded response under which the record loop
cannot raise (non-dict/non-list decodes are rejected before the loop). -/
def decodedSafe : JVal → Bool
  | .obj entries => recordSafe (.obj entries)
  | .arr cs => cs.all recordSafe
  | _ => true

/-- Shape condition on a raw response string under which
`parse_test_cases` cannot raise. -/
def parseSafe (s : String) : Bool :=
  match json_loads (stripFences s) with
  | none => true
  | some v => decodedSafe v

/-- A first row of a group, as `parse_test_cases` would emit it. -/
def titledRow : OutputRow :=
  { name := .str "Verify Login", objective := .str "Check login works",
    precondition := .str "User registered", step := .str "1. Log in",
    testData := .str "user/pass", expectedResult := .str "Logged in",
    coverage := .str "US-1", status := .str "Draft" }

/-- A continuation row of the same group (blank group fields). -/
def contRow : OutputRow :=
  { name := .str "", objective := .str "", precondition := .str "",
    step := .str "2. Log out", testData := .str "N/A",
    expectedResult := .str "Logged out", coverage := .str "", status := .str "" }

/-- A concrete model oracle used as a witness: the call for story text
`t2` fails (`None`), every other call returns a well-formed one-step
response. -/
def c9api : String → Option String :=
  fun t => if t = "t2" then none else some "\x7b\"Test steps\": [\x7b\x7d]\x7d"


/-! Helper lemmas about `parse_test_cases` and its components. -/

/-- Decode failure gives the empty row list plus the diagnostic. -/
theorem parse_decode_none (s uid : String) (h1 : ¬ s = "")
    (h2 : json_loads (stripFences s) = none) :
    parse_test_cases s uid = (.ok [], [.jsonDecodeFailure (stripFences s)]) := by
  simp only [parse_test_cases, if_neg h1, h2]

/-- Flattening all-dict steps with `first = false` yields one blank-group
row per step. -/
theorem flattenSteps_blank (t o p c st : JVal) :
    ∀ ss : List JVal, ss.all isObj = true →
    ∃ rows, flattenSteps t o p c st ss false = .ok rows ∧
      rows.length = ss.length ∧
      ∀ r ∈ rows, r.name = JVal.str "" ∧ r.objective = JVal.str "" ∧
        r.precondition = JVal.str "" ∧ r.coverage = JVal.str "" ∧
        r.status = JVal.str "" := by
  intro ss
  induction ss with
  | nil => exact fun _ => ⟨[], rfl, rfl, by simp⟩
  | cons s0 rest ih =>
    intro h
    rw [List.all_cons, Bool.and_eq_true] at h
    obtain ⟨h0, hrest⟩ := h
    obtain ⟨rows, hrows, hlen, hblank⟩ := ih hrest
    cases s0 with
    | obj k =>
      refine ⟨OutputRow.mk (JVal.str "") (JVal.str "") (JVal.str "")
        ((dictLookup k "Step").getD (JVal.str "N/A"))
        ((dictLookup k "Test Data").getD (JVal.str "N/A"))
        ((dictLookup k "Expected Result").getD (JVal.str "N/A"))
        (JVal.str "") (JVal.str "") :: rows, ?_, ?_, ?_⟩
      · simp [flattenSteps, pyGet, hrows]
      · simpa using hlen
      · intro r hr
        rcases List.mem_cons.mp hr with hr | hr
        · subst hr; exact ⟨rfl, rfl, rfl, rfl, rfl⟩
        · exact hblank r hr
    | null => simp [isObj] at h0
    | bool b => simp [isObj] at h0
    | num lit => simp [isObj] at h0
    | str s => simp [isObj] at h0
    | arr es => simp [isObj] at h0

/-- Flattening a non-empty all-dict step list with `first = true`: the
head row carries the group fields, the rest are blank. -/
theorem flattenSteps_first (t o p c st : JVal) (s0 : JVal) (rest : List JVal)
    (h0 : isObj s0 = true) (hrest : rest.all isObj = true) :
    ∃ r0 more, flattenSteps t o p c st (s0 :: rest) true = .ok (r0 :: more) ∧
      r0.name = t ∧ r0.objective = o ∧ r0.precondition = p ∧
      r0.coverage = c ∧ r0.status = st ∧
      more.length = rest.length ∧
      ∀ r ∈ more, r.name = JVal.str "" ∧ r.objective = JVal.str "" ∧
        r.precondition = JVal.str "" ∧ r.coverage = JVal.str "" ∧
        r.status = JVal.str "" := by
  obtain ⟨rows, hrows, hlen, hblank⟩ := flattenSteps_blank t o p c st rest hrest
  cases s0 with
  | obj k =>
    refine ⟨OutputRow.mk t o p
        ((dictLookup k "Step").getD (JVal.str "N/A"))
        ((dictLookup k "Test Data").getD (JVal.str "N/A"))
        ((dictLookup k "Expected Result").getD (JVal.str "N/A"))
        c st, rows, ?_, rfl, rfl, rfl, rfl, rfl, hlen, hblank⟩
    simp [flattenSteps, pyGet, hrows]
  | null => simp [isObj] at h0
  | bool b => simp [isObj] at h0
  | num lit => simp [isObj] at h0
  | str s => simp [isObj] at h0
  | arr es => simp [isObj] at h0

/-- Any all-dict step list flattens without an exception. -/
theorem flattenSteps_ok (t o p c st : JVal) (ss : List JVal)
    (h : ss.all isObj = true) (first : Bool) :
    ∃ rows, flattenSteps t o p c st ss first = .ok rows := by
  cases first with
  | false =>
    obtain ⟨rows, hrows, -, -⟩ := flattenSteps_blank t o p c st ss h
    exact ⟨rows, hrows⟩
  | true =>
    cases ss with
    | nil => exact ⟨[], rfl⟩
    | cons s0 rest =>
      rw [List.all_cons, Bool.and_eq_true] at h
      obtain ⟨r0, more, hflat, -⟩ := flattenSteps_first t o p c st s0 rest h.1 h.2
      exact ⟨r0 :: more, hflat⟩

/-- On a dict record, `processRecord` reduces to the step flattening with
the defaulted field values. -/
theorem processRecord_obj (uid : String) (kvs : List (String × JVal))
    (ss : List JVal)
    (hsteps : (dictLookup kvs "Test steps").getD (JVal.arr []) = JVal.arr ss) :
    processRecord uid (JVal.obj kvs) =
      flattenSteps ((dictLookup kvs "Title").getD (JVal.str "N/A"))
        ((dictLookup kvs "Objective").getD (JVal.str "N/A"))
        ((dictLookup kvs "Precondition").getD (JVal.str "N/A"))
        (JVal.str uid)
        ((dictLookup kvs "Status").getD (JVal.str "Draft")) ss true := by
  simp only [processRecord, pyGet, hsteps, pyIter]

/-- A shape-safe record is processed without an exception. -/
theorem processRecord_safe (uid : String) (c : JVal)
    (h : recordSafe c = true) : ∃ rows, processRecord uid c = .ok rows := by
  cases c with
  | obj entries =>
    simp only [recordSafe, stepsSafe] at h
    cases hit : pyIter ((dictLookup entries "Test steps").getD (JVal.arr [])) with
    | error e => rw [hit] at h; cases h
    | ok es =>
      rw [hit] at h
      obtain ⟨rows, hrows⟩ := flattenSteps_ok
        ((dictLookup entries "Title").getD (JVal.str "N/A"))
        ((dictLookup entries "Objective").getD (JVal.str "N/A"))
        ((dictLookup entries "Precondition").getD (JVal.str "N/A"))
        (JVal.str uid)
        ((dictLookup entries "Status").getD (JVal.str "Draft")) es h true
      refine ⟨rows, ?_⟩
      simp only [processRecord, pyGet, hit, hrows]
  | null => cases h
  | bool b => cases h
  | num lit => cases h
  | str s => cases h
  | arr es => cases h

/-- A list of shape-safe records is processed without an exception. -/
theorem processRecords_safe (uid : String) :
    ∀ cs : List JVal, cs.all recordSafe = true →
    ∃ rows, processRecords uid cs = .ok rows := by
  intro cs
  induction cs with
  | nil => exact fun _ => ⟨[], rfl⟩
  | cons c cs ih =>
    intro h
    rw [List.all_cons, Bool.and_eq_true] at h
    obtain ⟨rows, hrows⟩ := processRecord_safe uid c h.1
    obtain ⟨rest, hrest⟩ := ih h.2
    exact ⟨rows ++ rest, by simp only [processRecords, hrows, hrest]⟩

/-- C2 counterexample: the decoded value `["x"]` is a list whose element
is not a mapping, so `case.get("Title", ...)` raises an uncaught
`AttributeError` — `parse_test_cases` does not degrade this shape failure
to an empty result. -/
theorem claim_C2_counterexample :
    parse_test_cases "[\"x\"]" "S1" = (.error .attributeError, []) := by rfl

/-- C2 (amended): for every input string whose decoded value — when
decoding succeeds — is a dict, or a list all of whose elements are dicts,
with each record's `"Test steps"` value iterable and yielding only dicts,
`parse_test_cases` returns a (possibly empty) list and raises nothing;
decode failures and non-list/non-dict decodes still degrade to an empty
result with a printed diagnostic.  (Without the shape proviso the claim
fails: see the counterexample.) -/
theorem claim_C2_no_raise_when_shape_safe (s uid : String)
    (h : parseSafe s = true) :
    ∃ rows, (parse_test_cases s uid).1 = .ok rows := by
  by_cases hs : s = ""
  · subst hs; exact ⟨[], rfl⟩
  · simp only [parseSafe] at h
    cases hdec : json_loads (stripFences s) with
    | none => exact ⟨[], by simp [parse_test_cases, if_neg hs, hdec]⟩
    | some v =>
      rw [hdec] at h
      cases v with
      | obj entries =>
        have hsafe : recordSafe (JVal.obj entries) = true := by
          simpa [decodedSafe] using h
        obtain ⟨rows, hrows⟩ := processRecords_safe uid [JVal.obj entries]
          (by simp [List.all_cons, hsafe])
        exact ⟨rows, by simp [parse_test_cases, if_neg hs, hdec, hrows]⟩
      | arr cs =>
        have hsafe : cs.all recordSafe = true := by simpa [decodedSafe] using h
        obtain ⟨rows, hrows⟩ := processRecords_safe uid cs hsafe
        exact ⟨rows, by simp [parse_test_cases, if_neg hs, hdec, hrows]⟩
      | null => exact ⟨[], by simp [parse_test_cases, if_neg hs, hdec]⟩
      | bool b => exact ⟨[], by simp [parse_test_cases, if_neg hs, hdec]⟩
      | num lit => exact ⟨[], by simp [parse_test_cases, if_neg hs, hdec]⟩
      | str s2 => exact ⟨[], by simp [parse_test_cases, if_neg hs, hdec]⟩

/-- C2 witness: a concrete shape-safe input on which the amended theorem
applies. -/
theorem claim_C2_amended_witness :
    parseSafe "\x7b\"Test steps\": [\x7b\x7d]\x7d" = true ∧
    ∃ rows, (parse_test_cases "\x7b\"Test steps\": [\x7b\x7d]\x7d" "S1").1 = .ok rows :=
  ⟨by rfl, claim_C2_no_raise_when_shape_safe "\x7b\"Test steps\": [\x7b\x7d]\x7d" "S1" (by rfl)⟩

/-- C5: an input that fails strict JSON decoding after fence stripping
produces the empty row list plus the diagnostic carrying the (stripped)
response text, and no exception escapes.  (The empty input string never
reaches the decoder: it is diagnosed as a missing response first.) -/
theorem claim_C5_decode_failure (s uid : String) (h1 : s ≠ "")
    (h2 : json_loads (stripFences s) = none) :
    parse_test_cases s uid = (.ok [], [.jsonDecodeFailure (stripFences s)]) :=
  parse_decode_none s uid h1 h2

/-- C5 witness. -/
theorem claim_C5_witness :
    ("this is not json" : String) ≠ "" ∧
    json_loads (stripFences "this is not json") = none ∧
    parse_test_cases "this is not json" "S1" =
      (.ok [], [.jsonDecodeFailure (stripFences "this is not json")]) :=
  ⟨by decide, by rfl, claim_C5_decode_failure "this is not json" "S1" (by decide) (by rfl)⟩

/-- C10: each absent step-level key — `"Step"`, `"Test Data"`,
`"Expected Result"` — independently defaults to the literal `"N/A"` in
the corresponding row field (`flattenSteps` is the step loop of
`parse_test_cases`, lines 137-148). -/
theorem claim_C10_step_defaults (t o p c st : JVal) (first : Bool)
    (sk1 sk2 sk3 : List (String × JVal))
    (h1 : dictLookup sk1 "Step" = none)
    (h2 : dictLookup sk2 "Test Data" = none)
    (h3 : dictLookup sk3 "Expected Result" = none) :
    (∃ r, flattenSteps t o p c st [JVal.obj sk1] first = .ok [r] ∧
      r.step = JVal.str "N/A") ∧
    (∃ r, flattenSteps t o p c st [JVal.obj sk2] first = .ok [r] ∧
      r.testData = JVal.str "N/A") ∧
    (∃ r, flattenSteps t o p c st [JVal.obj sk3] first = .ok [r] ∧
      r.expectedResult = JVal.str "N/A") := by
  refine ⟨⟨?_, ?_, ?_⟩, ⟨?_, ?_, ?_⟩, ⟨?_, ?_, ?_⟩⟩
  · exact OutputRow.mk (if first then t else .str "") (if first then o else .str "")
      (if first then p else .str "") ((dictLookup sk1 "Step").getD (JVal.str "N/A"))
      ((dictLookup sk1 "Test Data").getD (JVal.str "N/A"))
      ((dictLookup sk1 "Expected Result").getD (JVal.str "N/A"))
      (if first then c else .str "") (if first then st else .str "")
  · simp [flattenSteps, pyGet]
  · simp [h1]
  · exact OutputRow.mk (if first then t else .str "") (if first then o else .str "")
      (if first then p else .str "") ((dictLookup sk2 "Step").getD (JVal.str "N/A"))
      ((dictLookup sk2 "Test Data").getD (JVal.str "N/A"))
      ((dictLookup sk2 "Expected Result").getD (JVal.str "N/A"))
      (if first then c else .str "") (if first then st else .str "")
  · simp [flattenSteps, pyGet]
  · simp [h2]
  · exact OutputRow.mk (if first then t else .str "") (if first then o else .str "")
      (if first then p else .str "") ((dictLookup sk3 "Step").getD (JVal.str "N/A"))
      ((dictLookup sk3 "Test Data").getD (JVal.str "N/A"))
      ((dictLookup sk3 "Expected Result").getD (JVal.str "N/A"))
      (if first then c else .str "") (if first then st else .str "")
  · simp [flattenSteps, pyGet]
  · simp [h3]

/-- C10 witness: a step dict with none of the three keys. -/
theorem claim_C10_witness :
    dictLookup [] "Step" = none ∧
    (∃ r, flattenSteps (JVal.str "T") (JVal.str "O") (JVal.str "P") (JVal.str "US-1")
        (JVal.str "Draft") [JVal.obj []] true = .ok [r] ∧ r.step = JVal.str "N/A") ∧
    (∃ r, flattenSteps (JVal.str "T") (JVal.str "O") (JVal.str "P") (JVal.str "US-1")
        (JVal.str "Draft") [JVal.obj []] true = .ok [r] ∧ r.testData = JVal.str "N/A") ∧
    (∃ r, flattenSteps (JVal.str "T") (JVal.str "O") (JVal.str "P") (JVal.str "US-1")
        (JVal.str "Draft") [JVal.obj []] true = .ok [r] ∧ r.expectedResult = JVal.str "N/A") :=
  ⟨rfl, claim_C10_step_defaults (JVal.str "T") (JVal.str "O") (JVal.str "P") (JVal.str "US-1")
    (JVal.str "Draft") true [] [] [] rfl rfl rfl⟩

/-- C6: for a record whose `Title`/`Objective`/`Precondition`/`Status`
keys are absent, the first emitted row carries the literal defaults
(`"N/A"`, `"N/A"`, `"N/A"`, `"Draft"`) and the coverage field is the
owning story id; a record whose `"Test steps"` key is absent defaults to
the empty step list and contributes zero rows. -/
theorem claim_C6_record_defaults (uid : String)
    (kvs kvs2 : List (String × JVal)) (sk : List (String × JVal))
    (rest : List JVal)
    (hT : dictLookup kvs "Title" = none)
    (hO : dictLookup kvs "Objective" = none)
    (hP : dictLookup kvs "Precondition" = none)
    (hS : dictLookup kvs "Status" = none)
    (hsteps : dictLookup kvs "Test steps" = some (JVal.arr (JVal.obj sk :: rest)))
    (hrest : rest.all isObj = true)
    (hNo : dictLookup kvs2 "Test steps" = none) :
    (∃ r0 more, processRecord uid (JVal.obj kvs) = .ok (r0 :: more) ∧
      r0.name = JVal.str "N/A" ∧ r0.objective = JVal.str "N/A" ∧
      r0.precondition = JVal.str "N/A" ∧ r0.coverage = JVal.str uid ∧
      r0.status = JVal.str "Draft") ∧
    processRecord uid (JVal.obj kvs2) = .ok [] := by
  constructor
  · have hred : processRecord uid (JVal.obj kvs) =
        flattenSteps (JVal.str "N/A") (JVal.str "N/A") (JVal.str "N/A")
          (JVal.str uid) (JVal.str "Draft") (JVal.obj sk :: rest) true := by
      have := processRecord_obj uid kvs (JVal.obj sk :: rest) (by rw [hsteps]; rfl)
      rw [this, hT, hO, hP, hS]
      rfl
    obtain ⟨r0, more, hflat, hn, ho, hp, hc, hst, -, -⟩ :=
      flattenSteps_first (JVal.str "N/A") (JVal.str "N/A") (JVal.str "N/A")
        (JVal.str uid) (JVal.str "Draft") (JVal.obj sk) rest rfl hrest
    exact ⟨r0, more, hred.trans hflat, hn, ho, hp, hc, hst⟩
  · have := processRecord_obj uid kvs2 [] (by rw [hNo]; rfl)
    rw [this]
    rfl

/-- C6 witness. -/
theorem claim_C6_witness :
    dictLookup [("Test steps", JVal.arr [JVal.obj []])] "Title" = none ∧
    (∃ r0 more,
      processRecord "US-9" (JVal.obj [("Test steps", JVal.arr [JVal.obj []])]) =
        .ok (r0 :: more) ∧
      r0.name = JVal.str "N/A" ∧ r0.objective = JVal.str "N/A" ∧
      r0.precondition = JVal.str "N/A" ∧ r0.coverage = JVal.str "US-9" ∧
      r0.status = JVal.str "Draft") ∧
    processRecord "US-9" (JVal.obj [("Title", JVal.str "X")]) = .ok [] := by
  refine ⟨rfl, ?_⟩
  exact claim_C6_record_defaults "US-9" [("Test steps", JVal.arr [JVal.obj []])]
    [("Title", JVal.str "X")] [] [] rfl rfl rfl rfl rfl rfl rfl

/-- C3: a well-formed single-record JSON response whose `"Test steps"`
list holds N ≥ 1 step dicts produces exactly N rows; the group fields
(Name, Objective, Precondition, Coverage, Status) are populated from the
record (with their defaults) on the first row only and are the blank
string on every later row. -/
theorem claim_C3_single_record_rows (s uid : String)
    (kvs : List (String × JVal)) (ss : List JVal)
    (hne : s ≠ "")
    (hdec : json_loads (stripFences s) = some (JVal.obj kvs))
    (hsteps : (dictLookup kvs "Test steps").getD (JVal.arr []) = JVal.arr ss)
    (hobj : ss.all isObj = true)
    (hN : ss ≠ []) :
    ∃ rows, parse_test_cases s uid = (.ok rows, []) ∧
      rows.length = ss.length ∧
      (∀ r0, rows.head? = some r0 →
        r0.name = (dictLookup kvs "Title").getD (JVal.str "N/A") ∧
        r0.objective = (dictLookup kvs "Objective").getD (JVal.str "N/A") ∧
        r0.precondition = (dictLookup kvs "Precondition").getD (JVal.str "N/A") ∧
        r0.coverage = JVal.str uid ∧
        r0.status = (dictLookup kvs "Status").getD (JVal.str "Draft")) ∧
      ∀ i (h : i < rows.length), 1 ≤ i →
        (rows.get ⟨i, h⟩).name = JVal.str "" ∧
        (rows.get ⟨i, h⟩).objective = JVal.str "" ∧
        (rows.get ⟨i, h⟩).precondition = JVal.str "" ∧
        (rows.get ⟨i, h⟩).coverage = JVal.str "" ∧
        (rows.get ⟨i, h⟩).status = JVal.str "" := by
  cases ss with
  | nil => exact absurd rfl hN
  | cons s0 rest =>
    rw [List.all_cons, Bool.and_eq_true] at hobj
    obtain ⟨r0, more, hflat, hn, ho, hp, hc, hst, hmlen, hblank⟩ :=
      flattenSteps_first ((dictLookup kvs "Title").getD (JVal.str "N/A"))
        ((dictLookup kvs "Objective").getD (JVal.str "N/A"))
        ((dictLookup kvs "Precondition").getD (JVal.str "N/A"))
        (JVal.str uid)
        ((dictLookup kvs "Status").getD (JVal.str "Draft"))
        s0 rest hobj.1 hobj.2
    have hrec : processRecord uid (JVal.obj kvs) = .ok (r0 :: more) :=
      (processRecord_obj uid kvs (s0 :: rest) hsteps).trans hflat
    refine ⟨r0 :: more, ?_, ?_, ?_, ?_⟩
    · simp [parse_test_cases, if_neg hne, hdec, processRecords, hrec]
    · simpa using hmlen
    · intro r0' hr0'
      rw [List.head?_cons, Option.some.injEq] at hr0'
      subst hr0'
      exact ⟨hn, ho, hp, hc, hst⟩
    · intro i h hi
      cases i with
      | zero => cases hi
      | succ j =>
        have hj : j < more.length := by
          simpa using h
        have hmem : more.get ⟨j, hj⟩ ∈ more := List.get_mem more j hj
        have hget : (r0 :: more).get ⟨j + 1, h⟩ = more.get ⟨j, hj⟩ := rfl
        rw [hget]
        exact hblank _ hmem

/-- C3 witness: a two-step single-record response. -/
theorem claim_C3_witness :
    json_loads (stripFences "\x7b\"Title\": \"T\", \"Test steps\": [\x7b\x7d, \x7b\x7d]\x7d") =
      some (JVal.obj [("Title", JVal.str "T"),
        ("Test steps", JVal.arr [JVal.obj [], JVal.obj []])]) ∧
    ∃ rows,
      parse_test_cases "\x7b\"Title\": \"T\", \"Test steps\": [\x7b\x7d, \x7b\x7d]\x7d" "US-3" =
        (.ok rows, []) ∧
      rows.length = ([JVal.obj [], JVal.obj []] : List JVal).length ∧
      (∀ r0, rows.head? = some r0 →
        r0.name = (dictLookup [("Title", JVal.str "T"),
          ("Test steps", JVal.arr [JVal.obj [], JVal.obj []])] "Title").getD (JVal.str "N/A") ∧
        r0.objective = (dictLookup [("Title", JVal.str "T"),
          ("Test steps", JVal.arr [JVal.obj [], JVal.obj []])] "Objective").getD (JVal.str "N/A") ∧
        r0.precondition = (dictLookup [("Title", JVal.str "T"),
          ("Test steps", JVal.arr [JVal.obj [], JVal.obj []])] "Precondition").getD (JVal.str "N/A") ∧
        r0.coverage = JVal.str "US-3" ∧
        r0.status = (dictLookup [("Title", JVal.str "T"),
          ("Test steps", JVal.arr [JVal.obj [], JVal.obj []])] "Status").getD (JVal.str "Draft")) ∧
      ∀ i (h : i < rows.length), 1 ≤ i →
        (rows.get ⟨i, h⟩).name = JVal.str "" ∧
        (rows.get ⟨i, h⟩).objective = JVal.str "" ∧
        (rows.get ⟨i, h⟩).precondition = JVal.str "" ∧
        (rows.get ⟨i, h⟩).coverage = JVal.str "" ∧
        (rows.get ⟨i, h⟩).status = JVal.str "" :=
  ⟨by rfl,
    claim_C3_single_record_rows
      "\x7b\"Title\": \"T\", \"Test steps\": [\x7b\x7d, \x7b\x7d]\x7d" "US-3"
      [("Title", JVal.str "T"), ("Test steps", JVal.arr [JVal.obj [], JVal.obj []])]
      [JVal.obj [], JVal.obj []]
      (by decide) (by rfl) (by rfl) (by rfl) (List.cons_ne_nil _ _)⟩

/-- On a table missing a required column, `read_user_stories` returns the
empty story list and logs the required-column set. -/
theorem read_user_stories_missing (df : DataFrame)
    (hcols : REQUIRED_COLUMNS.all (fun c => df.columns.contains c) = false) :
    read_user_stories true (some df) = ([], [.missingColumns REQUIRED_COLUMNS]) := by
  show (if (REQUIRED_COLUMNS.all fun c => df.columns.contains c) = true
      then (df.records.map (fun r => (r "User Story ID", r "User Story")), ([] : List LogMsg))
      else ([], [LogMsg.missingColumns REQUIRED_COLUMNS])) =
    ([], [LogMsg.missingColumns REQUIRED_COLUMNS])
  rw [hcols]
  simp

/-- C1: evaluation of the merge computation at a three-row group
([titledRow, contRow, contRow], one test case with three steps) and at a
two-row group.  The code merges only worksheet rows 2-3 — excluding the
group's first row (worksheet row 1) — and the merged cell displays the
blank value of the group's second row, not the first row's value; a
two-row group is not merged at all, although it spans more than one row.
This contradicts the claimed merge of each group's entire range displaying
the first row's value. -/
theorem claim_C1_merge_code_behavior :
    save_to_excel_merges [titledRow, contRow, contRow] =
      [⟨2, 0, 3, .str ""⟩, ⟨2, 1, 3, .str ""⟩, ⟨2, 2, 3, .str ""⟩,
       ⟨2, 6, 3, .str ""⟩, ⟨2, 7, 3, .str ""⟩] ∧
    save_to_excel_merges [titledRow, contRow] = [] := ⟨rfl, rfl⟩

/-- C8: an output-file argument whose lowercased form does not end in
`.xlsx` makes the program print the extension error and exit with status
1; the result is the same for every input-file state and every model
oracle, so the exit happens before any attempt to read the input file. -/
theorem claim_C8_extension_exit (out : String) (input_exists : Bool)
    (readRes : Option DataFrame) (api : String → Option String)
    (h : pyEndsWith (pyLower out) ".xlsx" = false) :
    program out input_exists readRes api =
      { exitCode := some 1, logs := [.badExtension], apiCalls := 0,
        written := none, raised := none } := by
  unfold program
  rw [h]
  rfl

/-- C8 witness: the spec's concrete scenario `report.txt`. -/
theorem claim_C8_witness :
    pyEndsWith (pyLower "report.txt") ".xlsx" = false ∧
    program "report.txt" true none (fun _ => some "x") =
      { exitCode := some 1, logs := [.badExtension], apiCalls := 0,
        written := none, raised := none } :=
  ⟨by decide, claim_C8_extension_exit "report.txt" true none (fun _ => some "x") (by decide)⟩

/-- C7: a readable input table lacking `User Story ID` or `User Story`
makes `read_user_stories` return the empty story list and log the exact
required-column set, and the resulting run makes zero model-API calls. -/
theorem claim_C7_missing_columns (out : String) (df : DataFrame)
    (api : String → Option String)
    (hext : pyEndsWith (pyLower out) ".xlsx" = true)
    (hcols : REQUIRED_COLUMNS.all (fun c => df.columns.contains c) = false) :
    read_user_stories true (some df) = ([], [.missingColumns REQUIRED_COLUMNS]) ∧
    program out true (some df) api =
      { exitCode := none, logs := [.missingColumns REQUIRED_COLUMNS, .noTestCases],
        apiCalls := 0, written := none, raised := none } := by
  refine ⟨read_user_stories_missing df hcols, ?_⟩
  unfold program
  rw [hext]
  simp only [read_user_stories_missing df hcols, run_stories]
  rfl

/-- C7 witness: a table with neither required column. -/
theorem claim_C7_witness :
    REQUIRED_COLUMNS.all (fun c => (DataFrame.mk ["Story"] []).columns.contains c) = false ∧
    read_user_stories true (some (DataFrame.mk ["Story"] [])) =
      ([], [.missingColumns REQUIRED_COLUMNS]) ∧
    program "out.xlsx" true (some (DataFrame.mk ["Story"] [])) (fun _ => some "x") =
      { exitCode := none, logs := [.missingColumns REQUIRED_COLUMNS, .noTestCases],
        apiCalls := 0, written := none, raised := none } := by
  refine ⟨by decide, ?_, ?_⟩
  · exact (claim_C7_missing_columns "out.xlsx" (DataFrame.mk ["Story"] [])
      (fun _ => some "x") (by decide) (by decide)).1
  · exact (claim_C7_missing_columns "out.xlsx" (DataFrame.mk ["Story"] [])
      (fun _ => some "x") (by decide) (by decide)).2

/-- Consing a story whose model call fails (`None`), returns the empty
string, or returns JSON-undecodable text contributes zero rows and one
API call. -/
theorem run_stories_cons_bad (api : String → Option String)
    (uid text : String) (L : List (String × String))
    (hbad : api text = none ∨ api text = some "" ∨
      ∃ r, api text = some r ∧ json_loads (stripFences r) = none) :
    run_stories api ((uid, text) :: L) =
      ((run_stories api L).1, (run_stories api L).2 + 1) := by
  rcases hbad with hb | hb | ⟨r, hb, hdec⟩
  · simp only [run_stories, hb]
  · simp only [run_stories, hb, if_true]
  · by_cases hr : r = ""
    · subst hr; simp only [run_stories, hb, if_true]
    · have hp : (parse_test_cases r uid).1 = .ok [] := by
        rw [parse_decode_none r uid hr hdec]
      simp only [run_stories, hb, if_neg hr, hp]
      cases h' : (run_stories api L).1 with
      | error e => simp
      | ok more => simp

/-- Consing a story whose response parses to rows prepends those rows and
adds one API call. -/
theorem run_stories_cons_ok (api : String → Option String)
    (uid text resp : String) (rows_q : List OutputRow)
    (L : List (String × String))
    (hq : api text = some resp) (hne : ¬ resp = "")
    (hp : (parse_test_cases resp uid).1 = .ok rows_q) :
    run_stories api ((uid, text) :: L) =
      (match (run_stories api L).1 with
       | .error e => .error e
       | .ok more => .ok (rows_q ++ more), (run_stories api L).2 + 1) := by
  simp only [run_stories, hq, if_neg hne, hp]

/-- Consing a story whose response raises in the parser aborts with that
exception after this story's single API call. -/
theorem run_stories_cons_err (api : String → Option String)
    (uid text resp : String) (e : PyErr) (L : List (String × String))
    (hq : api text = some resp) (hne : ¬ resp = "")
    (hp : (parse_test_cases resp uid).1 = .error e) :
    run_stories api ((uid, text) :: L) = (.error e, 1) := by
  simp only [run_stories, hq, if_neg hne, hp]

/-- C9: a story whose model response is absent, empty, or JSON-undecodable
contributes zero rows and does not abort the run: the accumulated result
is that of the same story list without it, and when that run succeeds the
only difference is the one extra model call the skipped story made — every
later story is still prompted, parsed and accumulated. -/
theorem claim_C9_bad_story_skipped (api : String → Option String)
    (pre post : List (String × String)) (uid text : String)
    (hbad : api text = none ∨ api text = some "" ∨
      ∃ r, api text = some r ∧ json_loads (stripFences r) = none) :
    (run_stories api (pre ++ (uid, text) :: post)).1 =
      (run_stories api (pre ++ post)).1 ∧
    ∀ rows n, run_stories api (pre ++ post) = (.ok rows, n) →
      run_stories api (pre ++ (uid, text) :: post) = (.ok rows, n + 1) := by
  induction pre with
  | nil =>
    rw [List.nil_append, List.nil_append,
      run_stories_cons_bad api uid text post hbad]
    exact ⟨rfl, fun rows n h => by rw [h]⟩
  | cons q pre' ih =>
    obtain ⟨ih1, ih2⟩ := ih
    obtain ⟨quid, qtext⟩ := q
    rw [List.cons_append, List.cons_append]
    cases hq : api qtext with
    | none =>
      have eA : run_stories api ((quid, qtext) :: (pre' ++ (uid, text) :: post)) =
          ((run_stories api (pre' ++ (uid, text) :: post)).1,
           (run_stories api (pre' ++ (uid, text) :: post)).2 + 1) := by
        simp only [run_stories, hq]
      have eB : run_stories api ((quid, qtext) :: (pre' ++ post)) =
          ((run_stories api (pre' ++ post)).1,
           (run_stories api (pre' ++ post)).2 + 1) := by
        simp only [run_stories, hq]
      constructor
      · rw [eA, eB]; exact ih1
      · intro rows n h
        rw [eB] at h
        have h1 : (run_stories api (pre' ++ post)).1 = .ok rows := congrArg Prod.fst h
        have h2 : (run_stories api (pre' ++ post)).2 + 1 = n := congrArg Prod.snd h
        have hB : run_stories api (pre' ++ post) =
            (.ok rows, (run_stories api (pre' ++ post)).2) := by rw [← h1]
        have hA := ih2 rows _ hB
        rw [eA, hA, ← h2]
    | some resp =>
      by_cases hr : resp = ""
      · subst hr
        have eA : run_stories api ((quid, qtext) :: (pre' ++ (uid, text) :: post)) =
            ((run_stories api (pre' ++ (uid, text) :: post)).1,
             (run_stories api (pre' ++ (uid, text) :: post)).2 + 1) := by
          simp only [run_stories, hq, if_true]
        have eB : run_stories api ((quid, qtext) :: (pre' ++ post)) =
            ((run_stories api (pre' ++ post)).1,
             (run_stories api (pre' ++ post)).2 + 1) := by
          simp only [run_stories, hq, if_true]
        constructor
        · rw [eA, eB]; exact ih1
        · intro rows n h
          rw [eB] at h
          have h1 : (run_stories api (pre' ++ post)).1 = .ok rows := congrArg Prod.fst h
          have h2 : (run_stories api (pre' ++ post)).2 + 1 = n := congrArg Prod.snd h
          have hB : run_stories api (pre' ++ post) =
              (.ok rows, (run_stories api (pre' ++ post)).2) := by rw [← h1]
          have hA := ih2 rows _ hB
          rw [eA, hA, ← h2]
      · cases hp : (parse_test_cases resp quid).1 with
        | error e =>
          have eA := run_stories_cons_err api quid qtext resp e
            (pre' ++ (uid, text) :: post) hq hr hp
          have eB := run_stories_cons_err api quid qtext resp e
            (pre' ++ post) hq hr hp
          constructor
          · rw [eA, eB]
          · intro rows n h
            rw [eB] at h
            have h1 : (Except.error e : Except PyErr (List OutputRow)) = .ok rows :=
              congrArg Prod.fst h
            cases h1
        | ok rows_q =>
          have eA := run_stories_cons_ok api quid qtext resp rows_q
            (pre' ++ (uid, text) :: post) hq hr hp
          have eB := run_stories_cons_ok api quid qtext resp rows_q
            (pre' ++ post) hq hr hp
          constructor
          · rw [eA, eB, ih1]
          · intro rows n h
            rw [eB] at h
            cases hB1 : (run_stories api (pre' ++ post)).1 with
            | error e =>
              rw [hB1] at h
              have h1 : (Except.error e : Except PyErr (List OutputRow)) = .ok rows :=
                congrArg Prod.fst h
              cases h1
            | ok more =>
              rw [hB1] at h
              have h1 : (Except.ok (rows_q ++ more) : Except PyErr (List OutputRow)) =
                  .ok rows := congrArg Prod.fst h
              have h2 : (run_stories api (pre' ++ post)).2 + 1 = n := congrArg Prod.snd h
              have hB : run_stories api (pre' ++ post) =
                  (.ok more, (run_stories api (pre' ++ post)).2) := by rw [← hB1]
              have hA := ih2 more _ hB
              rw [eA, hA, ← h2, ← Except.ok.inj h1]

/-- C9 witness: three stories, the middle model call fails; the other two
are still processed. -/
theorem claim_C9_witness :
    c9api "t2" = none ∧
    ((run_stories c9api ([("S1", "t1")] ++ ("S2", "t2") :: [("S3", "t3")])).1 =
      (run_stories c9api ([("S1", "t1")] ++ [("S3", "t3")])).1 ∧
    ∀ rows n, run_stories c9api ([("S1", "t1")] ++ [("S3", "t3")]) = (.ok rows, n) →
      run_stories c9api ([("S1", "t1")] ++ ("S2", "t2") :: [("S3", "t3")]) = (.ok rows, n + 1)) :=
  ⟨rfl, claim_C9_bad_story_skipped c9api [("S1", "t1")] [("S3", "t3")] "S2" "t2" (Or.inl rfl)⟩

/-! Lemmas about the fence regex, for C4. -/

/-- If the closing fence does not occur in `c :: rest`, it does not occur
in `rest`. -/
theorem splitAtClose_cons_none {c : Char} {rest : List Char}
    (h : splitAtClose (c :: rest) = none) : splitAtClose rest = none := by
  unfold splitAtClose at h
  by_cases hc : c = '\n' ∧ rest.take 3 = "```".data
  · rw [if_pos hc] at h; cases h
  · rw [if_neg hc] at h
    cases hs : splitAtClose rest with
    | none => rfl
    | some q => obtain ⟨b, a⟩ := q; rw [hs] at h; cases h

/-- No closing fence in `l` means none in any suffix of `l`. -/
theorem splitAtClose_drop (n : Nat) :
    ∀ l : List Char, splitAtClose l = none → splitAtClose (l.drop n) = none := by
  induction n with
  | zero => exact fun l h => h
  | succ m ih =>
    intro l h
    cases l with
    | nil => exact h
    | cons c rest => rw [List.drop_succ_cons]; exact ih rest (splitAtClose_cons_none h)

/-- Without a closing fence the regex cannot match at the head. -/
theorem matchFence_none {l : List Char} (h : splitAtClose l = none) :
    matchFence l = none := by
  unfold matchFence
  by_cases h8 : l.take 8 = "```json\n".data
  · rw [if_pos h8]; exact splitAtClose_drop 8 l h
  · rw [if_neg h8]
    by_cases h4 : l.take 4 = "```\n".data
    · rw [if_pos h4]; exact splitAtClose_drop 4 l h
    · rw [if_neg h4]

/-- Without a closing fence, `re.sub` leaves the text unchanged (for any
fuel). -/
theorem reSub_no_close :
    ∀ l : List Char, splitAtClose l = none → ∀ fuel, reSubFence fuel l = l := by
  intro l
  induction l with
  | nil =>
    intro _ fuel
    cases fuel with
    | zero => rfl
    | succ f => rfl
  | cons c rest ih =>
    intro h fuel
    cases fuel with
    | zero => rfl
    | succ f =>
      unfold reSubFence
      rw [matchFence_none h]
      exact congrArg (c :: ·) (ih (splitAtClose_cons_none h) f)

/-- A whitespace-only list contains no closing fence. -/
theorem splitAtClose_ws {l : List Char} (h : ∀ c ∈ l, isPyWs c = true) :
    splitAtClose l = none := by
  induction l with
  | nil => rfl
  | cons c rest ih =>
    have hrest : splitAtClose rest = none :=
      ih (fun x hx => h x (List.mem_cons_of_mem c hx))
    unfold splitAtClose
    rw [if_neg ?_, hrest]
    rintro ⟨-, htake⟩
    have hall : ∀ x ∈ "```".data, isPyWs x = true := by
      rw [← htake]
      intro x hx
      exact h x (List.mem_cons_of_mem c (List.mem_of_mem_take hx))
    exact absurd hall (by decide)

/-- The lazy group stops exactly at the appended closing fence when the
payload itself contains none: `splitAtClose (p ++ "\n```" ++ ws)` splits
into `(p, ws)`. -/
theorem splitAtClose_append :
    ∀ p : List Char, splitAtClose p = none →
    ∀ ws : List Char, splitAtClose (p ++ "\n```".data ++ ws) = some (p, ws) := by
  intro p
  induction p with
  | nil =>
    intro _ ws
    rw [List.nil_append,
      show ("\n```".data ++ ws : List Char) = '\n' :: ("```".data ++ ws) from rfl]
    unfold splitAtClose
    rw [if_pos ⟨rfl, List.take_left' (by decide)⟩, List.drop_left' (by decide)]
  | cons c p' ih =>
    intro hp ws
    have hp' : splitAtClose p' = none := splitAtClose_cons_none hp
    have hne : ¬ (c = '\n' ∧ p'.take 3 = "```".data) := by
      intro hcontra
      unfold splitAtClose at hp
      rw [if_pos hcontra] at hp
      cases hp
    rw [List.cons_append, List.cons_append]
    unfold splitAtClose
    rw [if_neg ?_, ih hp' ws]
    rintro ⟨hc, htake⟩
    apply hne
    refine ⟨hc, ?_⟩
    match p' with
    | [] =>
      exfalso
      have h1 : ('\n' : Char) ∈ "```".data := by
        rw [← htake, List.nil_append,
          show ("\n```".data ++ ws : List Char) = '\n' :: ("```".data ++ ws) from rfl,
          List.take_succ_cons]
        exact List.mem_cons_self '\n' _
      exact absurd h1 (by decide)
    | [a] =>
      exfalso
      have h1 : ('\n' : Char) ∈ "```".data := by
        rw [← htake]
        exact List.mem_cons_of_mem a (List.mem_cons_self '\n' _)
      exact absurd h1 (by decide)
    | [a, b] =>
      exfalso
      have h1 : ('\n' : Char) ∈ "```".data := by
        rw [← htake]
        exact List.mem_cons_of_mem a
          (List.mem_cons_of_mem b (List.mem_cons_self '\n' _))
      exact absurd h1 (by decide)
    | a :: b :: c2 :: p'' => exact htake

/-- The regex cannot match at a whitespace character (a match starts with
a backtick). -/
theorem matchFence_ws_cons {c : Char} (hc : isPyWs c = true) (t : List Char) :
    matchFence (c :: t) = none := by
  unfold matchFence
  rw [if_neg ?h8, if_neg ?h4]
  case h8 =>
    intro heq
    rw [List.take_succ_cons] at heq
    have h3 := congrArg (fun l => (l.map isPyWs).head?) heq
    simp only [List.map_cons, List.head?_cons] at h3
    rw [hc] at h3
    exact absurd h3 (by decide)
  case h4 =>
    intro heq
    rw [List.take_succ_cons] at heq
    have h3 := congrArg (fun l => (l.map isPyWs).head?) heq
    simp only [List.map_cons, List.head?_cons] at h3
    rw [hc] at h3
    exact absurd h3 (by decide)

/-- At the opening fence the regex matches, capturing exactly the wrapped
payload, when the payload has no closing fence of its own. -/
theorem matchFence_wrap (tag : List Char) (htag : tag = "json".data ∨ tag = [])
    (p ws2 : List Char) (hp : splitAtClose p = none) :
    matchFence ("```".data ++ tag ++ '\n' :: (p ++ "\n```".data ++ ws2)) =
      some (p, ws2) := by
  rcases htag with h | h <;> subst h
  · have hshape : ("```".data ++ "json".data ++ '\n' :: (p ++ "\n```".data ++ ws2) : List Char) =
        "```json\n".data ++ (p ++ "\n```".data ++ ws2) := by
      rw [show ('\n' :: (p ++ "\n```".data ++ ws2) : List Char) =
        ['\n'] ++ (p ++ "\n```".data ++ ws2) from rfl]
      rw [List.append_assoc "```".data "json".data,
        ← List.append_assoc "json".data ['\n'],
        ← List.append_assoc "```".data]
      rfl
    rw [hshape]
    unfold matchFence
    rw [if_pos (List.take_left' (by decide)), List.drop_left' (by decide)]
    exact splitAtClose_append p hp ws2
  · have hshape : ("```".data ++ [] ++ '\n' :: (p ++ "\n```".data ++ ws2) : List Char) =
        "```\n".data ++ (p ++ "\n```".data ++ ws2) := by
      rw [List.append_nil]
      rfl
    rw [hshape]
    unfold matchFence
    rw [if_neg ?h8, if_pos (List.take_left' (by decide)), List.drop_left' (by decide)]
    · exact splitAtClose_append p hp ws2
    case h8 =>
      intro heq
      have h3 := congrArg (fun l => l[3]?) heq
      simp only at h3
      rw [List.getElem?_take_of_lt (by decide : (3 : Nat) < 8),
        List.getElem?_append_left (by decide : (3 : Nat) < ("```\n".data).length)] at h3
      exact absurd h3 (by decide)

/-- `re.sub` on the fenced, whitespace-padded payload replaces the fence
block by the bare payload. -/
theorem reSub_wrap (tag : List Char) (htag : tag = "json".data ∨ tag = [])
    (p ws2 : List Char) (hp : splitAtClose p = none)
    (hws2 : ∀ c ∈ ws2, isPyWs c = true) :
    ∀ ws1 : List Char, (∀ c ∈ ws1, isPyWs c = true) →
    ∀ fuel, ws1.length < fuel →
    reSubFence fuel (ws1 ++ "```".data ++ tag ++ '\n' :: (p ++ "\n```".data ++ ws2)) =
      ws1 ++ (p ++ ws2) := by
  intro ws1
  induction ws1 with
  | nil =>
    intro _ fuel hfuel
    cases fuel with
    | zero => cases hfuel
    | succ f =>
      rw [List.nil_append, List.nil_append]
      unfold reSubFence
      rw [matchFence_wrap tag htag p ws2 hp]
      show p ++ reSubFence f ws2 = p ++ ws2
      rw [reSub_no_close ws2 (splitAtClose_ws hws2) f]
  | cons c ws1' ih =>
    intro hws1 fuel hfuel
    cases fuel with
    | zero => cases hfuel
    | succ f =>
      have hc : isPyWs c = true := hws1 c (List.mem_cons_self c ws1')
      have hws1' : ∀ x ∈ ws1', isPyWs x = true :=
        fun x hx => hws1 x (List.mem_cons_of_mem c hx)
      simp only [List.cons_append]
      unfold reSubFence
      rw [matchFence_ws_cons hc]
      show c :: reSubFence f
          (ws1' ++ "```".data ++ tag ++ '\n' :: (p ++ "\n```".data ++ ws2)) =
        c :: (ws1' ++ (p ++ ws2))
      have hf : ws1'.length < f := by
        have := hfuel
        simp only [List.length_cons] at this
        omega
      exact congrArg (c :: ·) (ih hws1' f hf)

/-- `dropWhile` skips a whitespace-only prefix. -/
theorem dropWhile_ws_append (ws l : List Char) (h : ∀ c ∈ ws, isPyWs c = true) :
    (ws ++ l).dropWhile isPyWs = l.dropWhile isPyWs := by
  induction ws with
  | nil => rfl
  | cons c ws' ih =>
    rw [List.cons_append, List.dropWhile_cons,
      if_pos (h c (List.mem_cons_self c ws'))]
    exact ih (fun x hx => h x (List.mem_cons_of_mem c hx))

/-- When the left part survives `dropWhile`, appending does not change
what is dropped. -/
theorem dropWhile_append_of_ne_nil :
    ∀ x y : List Char, x.dropWhile isPyWs ≠ [] →
    (x ++ y).dropWhile isPyWs = x.dropWhile isPyWs ++ y := by
  intro x
  induction x with
  | nil => exact fun y h => absurd rfl h
  | cons c x' ih =>
    intro y h
    rw [List.dropWhile_cons] at h
    rw [List.cons_append, List.dropWhile_cons]
    by_cases hc : isPyWs c = true
    · rw [if_pos hc]
      rw [if_pos hc] at h
      rw [show List.dropWhile isPyWs (c :: x') = List.dropWhile isPyWs x' from
        by rw [List.dropWhile_cons, if_pos hc]]
      exact ih y h
    · rw [if_neg hc]
      rw [show List.dropWhile isPyWs (c :: x') = c :: x' from
        by rw [List.dropWhile_cons, if_neg hc]]
      rw [List.cons_append]

/-- `str.strip()` ignores whitespace affixes. -/
theorem pyStrip_affix (ws1 x ws2 : List Char)
    (h1 : ∀ c ∈ ws1, isPyWs c = true) (h2 : ∀ c ∈ ws2, isPyWs c = true) :
    pyStrip (ws1 ++ (x ++ ws2)) = pyStrip x := by
  unfold pyStrip
  rw [dropWhile_ws_append ws1 (x ++ ws2) h1]
  by_cases hx : x.dropWhile isPyWs = []
  · have hxw : ∀ c ∈ x, isPyWs c = true := List.dropWhile_eq_nil_iff.mp hx
    rw [dropWhile_ws_append x ws2 hxw, List.dropWhile_eq_nil_iff.mpr h2, hx]
  · rw [dropWhile_append_of_ne_nil x ws2 hx, List.reverse_append,
      dropWhile_ws_append ws2.reverse _
        (fun c hc => h2 c (List.mem_reverse.mp hc))]

/-- Fence stripping on text with no fence match reduces to `.strip()`. -/
theorem stripFences_no_fence (p : String) (hp : splitAtClose p.data = none) :
    stripFences p = ⟨pyStrip p.data⟩ := by
  unfold stripFences
  rw [reSub_no_close p.data hp]

/-- Fence stripping of a (whitespace-padded, optionally `json`-tagged)
fenced payload yields the stripped payload, provided the payload contains
no closing fence of its own — true in particular of every strict-JSON
text, which can contain a backtick only inside a string literal and a raw
newline only between tokens, never the one right before the other. -/
theorem stripFences_wrap (ws1 tag p ws2 : String)
    (htag : tag = "json" ∨ tag = "")
    (h1 : ∀ c ∈ ws1.data, isPyWs c = true)
    (h2 : ∀ c ∈ ws2.data, isPyWs c = true)
    (hp : splitAtClose p.data = none) :
    stripFences (ws1 ++ "```" ++ tag ++ "\n" ++ p ++ "\n```" ++ ws2) =
      ⟨pyStrip p.data⟩ := by
  have hdata : (ws1 ++ "```" ++ tag ++ "\n" ++ p ++ "\n```" ++ ws2).data =
      ws1.data ++ "```".data ++ tag.data ++ '\n' :: (p.data ++ "\n```".data ++ ws2.data) := by
    simp only [String.data_append, List.append_assoc]
    rfl
  have htag' : tag.data = "json".data ∨ tag.data = [] := by
    rcases htag with h | h <;> subst h
    · exact Or.inl rfl
    · exact Or.inr rfl
  unfold stripFences
  rw [hdata]
  rw [reSub_wrap tag.data htag' p.data ws2.data hp h2 ws1.data h1 _ ?_]
  · rw [pyStrip_affix ws1.data p.data ws2.data h1 h2]
  · simp only [List.length_append, List.length_cons]
    omega

/-- C4: wrapping a payload in a fenced code block — with or without the
`json` language tag, with any whitespace before and after the block —
does not change the row sequence `parse_test_cases` produces, for every
payload with no closing fence of its own (true of every strict-JSON
payload, which can contain no `"\n```"` substring). -/
theorem claim_C4_fence_transparent (p ws1 ws2 tag uid : String)
    (htag : tag = "json" ∨ tag = "")
    (h1 : ∀ c ∈ ws1.data, isPyWs c = true)
    (h2 : ∀ c ∈ ws2.data, isPyWs c = true)
    (hp : splitAtClose p.data = none) :
    (parse_test_cases (ws1 ++ "```" ++ tag ++ "\n" ++ p ++ "\n```" ++ ws2) uid).1 =
      (parse_test_cases p uid).1 := by
  have hW : (ws1 ++ "```" ++ tag ++ "\n" ++ p ++ "\n```" ++ ws2 : String) ≠ "" := by
    intro h
    have hd := congrArg String.data h
    simp only [String.data_append] at hd
    have h3 : ("```" : String).data = [] :=
      (List.append_eq_nil.mp (List.append_eq_nil.mp (List.append_eq_nil.mp
        (List.append_eq_nil.mp (List.append_eq_nil.mp
          (List.append_eq_nil.mp hd).1).1).1).1).1).2
    exact absurd h3 (by decide)
  have hstripW := stripFences_wrap ws1 tag p ws2 htag h1 h2 hp
  by_cases hzero : p = ""
  · subst hzero
    rw [show (⟨pyStrip ("" : String).data⟩ : String) = "" from rfl] at hstripW
    simp only [parse_test_cases, if_neg hW, hstripW]
    rfl
  · have hstripP := stripFences_no_fence p hp
    simp only [parse_test_cases, if_neg hW, if_neg hzero, hstripW, hstripP]

/-- C4 witness: a concrete JSON payload wrapped in a tagged fence with
surrounding whitespace. -/
theorem claim_C4_witness :
    splitAtClose ("\x7b\"Test steps\": [\x7b\x7d]\x7d" : String).data = none ∧
    (parse_test_cases
        (" " ++ "```" ++ "json" ++ "\n" ++ "\x7b\"Test steps\": [\x7b\x7d]\x7d" ++ "\n```" ++ "\n")
        "US-4").1 =
      (parse_test_cases "\x7b\"Test steps\": [\x7b\x7d]\x7d" "US-4").1 :=
  ⟨by rfl,
    claim_C4_fence_transparent "\x7b\"Test steps\": [\x7b\x7d]\x7d" " " "\n" "json" "US-4"
      (Or.inl rfl) (by decide) (by decide) (by rfl)⟩
